import Mathlib

/-!
Shallow embedding of `src/components/CampaignAnalytics.tsx`: the data model,
the aggregation functions, the table sort state machine, the spreadsheet
export record builder, and the data loader effect, together with proofs of
the behavioural claims about them.

Conventions of the embedding:
* JavaScript numbers that only ever hold exact call durations are modelled
  as rationals (`ℚ`); the special values produced by division are modelled
  explicitly by `JSNum` (NaN / ±Infinity / finite).
* Nullable (`T | null | undefined`) fields are `Option`; JavaScript's
  truthiness coercion on strings (`null`, `undefined` and `""` are falsy)
  is modelled by `jsTruthy` / `jsOrStr`.
* `Array.prototype.sort` with a numeric comparator is, per the ECMAScript
  specification, a stable sort; the canonical stable sort with respect to a
  total preorder is `List.insertionSort` with the non-strict comparison, so
  the model uses `List.insertionSort` with the comparator's induced preorder.
-/

/-- Modelled from the spec: the `CallLog` record type imported from
`src/utils/db` (the file itself is not part of this repository snapshot).
Attributes per the spec's data model: identifier, phone number, caller first
name, provider call identifier, nullable disconnection reason, nullable
duration in seconds, nullable sentiment label, start timestamp, summary,
transcript and nullable recording URL, matching the fields the component
reads (`id`, `phoneNumber`, `firstName`, `callId`, `disconnection_reason`,
`call_duration`, `user_sentiment`, `start_time`, `call_summary`,
`call_transcript`, `call_recording`). -/
structure CallLog where
  id : Option Nat
  phoneNumber : String
  firstName : String
  callId : String
  disconnection_reason : Option String
  call_duration : Option ℚ
  user_sentiment : Option String
  start_time : Option String
  call_summary : Option String
  call_transcript : Option String
  call_recording : Option String
deriving DecidableEq, Repr

/-- Modelled from the spec: the `Campaign` record type from `src/utils/db`;
only its `title` is read by this component (`campaign?.title`). -/
structure Campaign where
  title : String
deriving DecidableEq, Repr

/-- JavaScript string truthiness for a `string | null | undefined` value:
`null`, `undefined` and the empty string are falsy. -/
def jsTruthy (s : Option String) : Bool :=
  match s with
  | none => false
  | some str => !(str == "")

/-- The JavaScript idiom `x || d` on a `string | null | undefined` value
`x`: yields `d` when `x` is null, undefined or the empty string. -/
def jsOrStr (x : Option String) (d : String) : String :=
  match x with
  | none => d
  | some s => if s = "" then d else s

/-- A JavaScript number that may be the result of a division: NaN,
positive or negative infinity, or a finite (here: exact rational) value. -/
inductive JSNum where
  | nan
  | posInf
  | negInf
  | num (q : ℚ)
deriving DecidableEq, Repr

/-- JavaScript division on finite operands: `0 / 0` is NaN, `x / 0` for
nonzero `x` is a signed infinity, otherwise exact division. -/
def jsDiv (a b : ℚ) : JSNum :=
  if b = 0 then
    if a = 0 then JSNum.nan
    else if 0 < a then JSNum.posInf
    else JSNum.negInf
  else JSNum.num (a / b)

/-- `Number.prototype.toFixed(2)` on a finite value: the string for the
integer `n` nearest to `100 * |q|` (ties to the larger `n`), with a sign,
a decimal point and exactly two fractional digits. The ECMAScript branch
for magnitudes at or above 10^21 (which falls back to `ToString`) is not
modelled; call durations never reach it. Binary floating-point rounding
noise is likewise not modelled: values are exact rationals. -/
def ratToFixed2 (q : ℚ) : String :=
  let sign := if q < 0 then "-" else ""
  let n : Nat := (Rat.floor (abs q * 100 + 1 / 2)).toNat
  sign ++ toString (n / 100) ++ "." ++
    (if n % 100 < 10 then "0" else "") ++ toString (n % 100)

/-- `toFixed(2)` on a possibly non-finite number: `NaN.toFixed(2)` is the
string `"NaN"`, `Infinity.toFixed(2)` is `"Infinity"`. -/
def jsNumToFixed2 : JSNum → String
  | JSNum.nan => "NaN"
  | JSNum.posInf => "Infinity"
  | JSNum.negInf => "-Infinity"
  | JSNum.num q => ratToFixed2 q

/-- The duration key used throughout the component: `log.call_duration || 0`
(a null, undefined or zero duration all yield `0`). -/
def durKey (log : CallLog) : ℚ :=
  log.call_duration.getD 0

/-- `totalCalls = callLogs.length` (CampaignAnalytics, line 372). -/
def totalCalls (logs : List CallLog) : Nat :=
  logs.length

/-- `answeredCalls`: the number of logs whose `disconnection_reason` is
strictly equal (`===`) to the string literal `'completed'`
(CampaignAnalytics, lines 373-375). -/
def answeredCalls (logs : List CallLog) : Nat :=
  (logs.filter (fun log => decide (log.disconnection_reason = some "completed"))).length

/-- `unansweredCalls = totalCalls - answeredCalls` (line 376); JavaScript
subtraction is exact here, modelled in `ℤ`. -/
def unansweredCalls (logs : List CallLog) : Int :=
  (totalCalls logs : Int) - (answeredCalls logs : Int)

/-- The `reduce` accumulating the duration sum (lines 378-381): each log
contributes `log.call_duration || 0`. -/
def sumDurations (logs : List CallLog) : ℚ :=
  logs.foldl (fun sum log => sum + durKey log) 0

/-- `averageCallDuration = (reduce ...) / totalCalls` (lines 377-381):
JavaScript division, so an empty list yields `0 / 0 = NaN`. -/
def averageCallDuration (logs : List CallLog) : JSNum :=
  jsDiv (sumDurations logs) (totalCalls logs : ℚ)

/-- The string rendered by the "Avg. Call Duration" stat card (line 441):
the template literal `` `${averageCallDuration.toFixed(2)} sec` ``. -/
def avgCallDurationDisplay (logs : List CallLog) : String :=
  jsNumToFixed2 (averageCallDuration logs) ++ " sec"

/-- One step of the grouping `reduce` (lines 384-388):
`acc[reason] = (acc[reason] || 0) + 1` on a plain object whose keys are
reason labels. For such (non-array-index) keys the object preserves
insertion order, so the object is modelled as an association list: an
existing key is bumped in place, a new key is appended. -/
def bumpReason : List (String × Nat) → String → List (String × Nat)
  | [], reason => [(reason, 1)]
  | (k, v) :: rest, reason =>
      if k = reason then (k, v + 1) :: rest
      else (k, v) :: bumpReason rest reason

/-- `disconnectionReasonData`: group the logs by
`log.disconnection_reason || 'Unknown'`, counting occurrences, in
first-occurrence (insertion) order (lines 384-388); `Object.entries` then
yields exactly this ordered list (lines 390-392). -/
def disconnectionReasonData (logs : List CallLog) : List (String × Nat) :=
  logs.foldl (fun acc log => bumpReason acc (jsOrStr log.disconnection_reason "Unknown")) []

/-- The sort direction of `sortConfig` — `'asc' | 'desc'`; the source's
`null` direction is `none` of `Option SortDir`. -/
inductive SortDir where
  | asc
  | desc
deriving DecidableEq, Repr

/-- The state of `CallLogTable`: the `callLogs` prop (the fetched list),
the `sortedLogs` state (the displayed order) and `sortConfig.direction`
(the sort key is the fixed literal `'call_duration'` and carries no
information). Initially `sortedLogs = callLogs` and the direction is
`null` (lines 98-102). -/
structure TableState where
  callLogs : List CallLog
  sortedLogs : List CallLog
  direction : Option SortDir
deriving DecidableEq, Repr

/-- The initial table state for a fetched list `logs`. -/
def initTableState (logs : List CallLog) : TableState :=
  ⟨logs, logs, none⟩

/-- The ascending comparator's induced preorder: the source comparator is
`(a.call_duration || 0) - (b.call_duration || 0)` (lines 123-127), so `a`
need not precede `b` exactly when the comparator is positive. -/
def ascRel (a b : CallLog) : Prop :=
  durKey a ≤ durKey b

/-- The descending comparator's induced preorder (comparator
`bValue - aValue`, line 126). -/
def descRel (a b : CallLog) : Prop :=
  durKey b ≤ durKey a

instance : DecidableRel ascRel :=
  fun a b => inferInstanceAs (Decidable (durKey a ≤ durKey b))

instance : DecidableRel descRel :=
  fun a b => inferInstanceAs (Decidable (durKey b ≤ durKey a))

instance : IsTotal CallLog ascRel :=
  ⟨fun a b => le_total (durKey a) (durKey b)⟩

instance : IsTotal CallLog descRel :=
  ⟨fun a b => le_total (durKey b) (durKey a)⟩

instance : IsTrans CallLog ascRel :=
  ⟨fun _ _ _ hab hbc => le_trans hab hbc⟩

instance : IsTrans CallLog descRel :=
  ⟨fun _ _ _ hab hbc => le_trans hbc hab⟩

/-- `handleSort` (lines 108-130): advance the direction through the cycle
`null → 'asc' → 'desc' → null`; on `null` restore the `callLogs` prop as
the displayed order, otherwise stable-sort a copy of the *currently
displayed* list with the duration comparator (`Array.prototype.sort` is
stable, modelled by `List.insertionSort` of the comparator's non-strict
preorder). -/
def handleSort (s : TableState) : TableState :=
  let direction : Option SortDir :=
    match s.direction with
    | none => some SortDir.asc
    | some SortDir.asc => some SortDir.desc
    | some SortDir.desc => none
  match direction with
  | none => ⟨s.callLogs, s.callLogs, none⟩
  | some SortDir.asc =>
      ⟨s.callLogs, List.insertionSort ascRel s.sortedLogs, some SortDir.asc⟩
  | some SortDir.desc =>
      ⟨s.callLogs, List.insertionSort descRel s.sortedLogs, some SortDir.desc⟩

/-- The `useEffect` on `[callLogs]` (lines 104-106) as seen together with a
new `callLogs` prop value: the displayed order becomes the new fetched
list (`setSortedLogs(callLogs)`); `sortConfig` is not touched. -/
def callLogsChanged (s : TableState) (newLogs : List CallLog) : TableState :=
  ⟨newLogs, newLogs, s.direction⟩

/-- One row of the spreadsheet built by `handleExport` (lines 134-145).
Field values are JavaScript strings or `undefined` (`none`): only the
disconnection reason is defaulted with `|| 'N/A'`; the duration is
`log.call_duration?.toFixed(2)` (undefined when the duration is missing);
the remaining fields are passed through unchanged. -/
structure ExportRecord where
  phoneNumber : String
  firstName : String
  callId : String
  disconnectionReason : String
  durationSec : Option String
  sentiment : Option String
  startTime : Option String
  callSummary : Option String
  callTranscript : Option String
  callRecording : Option String
deriving DecidableEq, Repr

/-- The record `handleExport` builds for one log (lines 134-145). -/
def toExportRecord (log : CallLog) : ExportRecord where
  phoneNumber := log.phoneNumber
  firstName := log.firstName
  callId := log.callId
  disconnectionReason := jsOrStr log.disconnection_reason "N/A"
  durationSec := log.call_duration.map ratToFixed2
  sentiment := log.user_sentiment
  startTime := log.start_time
  callSummary := log.call_summary
  callTranscript := log.call_transcript
  callRecording := log.call_recording

/-- `exportData = sortedLogs.map(log => ({...}))` (line 134): the rows of
the exported sheet, one per displayed log, in displayed order. -/
def exportData (s : TableState) : List ExportRecord :=
  s.sortedLogs.map toExportRecord

/-- The state of the `useCampaignData` hook (lines 27-31): `callLogs`,
`campaignTitle`, `loading` and `error`, with initial values `[]`, `''`,
`true` and `null`. -/
structure LoaderState where
  callLogs : List CallLog
  campaignTitle : String
  loading : Bool
  error : Option String
deriving DecidableEq, Repr

/-- The hook's initial state. -/
def initLoaderState : LoaderState :=
  ⟨[], "", true, none⟩

/-- The outcome of the joint `Promise.all` of `getCallLogs` and
`getCampaign`: either both results, or a rejection. -/
inductive FetchOutcome where
  | ok (logs : List CallLog) (campaign : Option Campaign)
  | err
deriving Repr

/-- `fetchData` (lines 34-50): nothing at all happens unless `id` is
truthy; on success the logs and the title (`campaign?.title || 'Campaign'`)
are stored, on failure the static error message is stored, and in either
fetched case the `finally` clause clears `loading`. -/
def fetchData (id : Option String) (outcome : FetchOutcome) (s : LoaderState) : LoaderState :=
  if jsTruthy id then
    match outcome with
    | FetchOutcome.ok logs campaign =>
        ⟨logs, jsOrStr (campaign.map Campaign.title) "Campaign", false, s.error⟩
    | FetchOutcome.err =>
        ⟨s.callLogs, s.campaignTitle, false,
          some "Failed to load campaign data. Please try again."⟩
  else s

/-- Whether an execution of the effect body reaches the fetch calls: the
guard `if (id)` on line 35. -/
def performsFetch (id : Option String) : Bool :=
  jsTruthy id

/-- The page renders the spinner (and nothing else) exactly when `loading`
is set (lines 355-361). -/
def rendersLoadingSpinner (s : LoaderState) : Bool :=
  s.loading

/-- Inserting into a list commutes with filtering for an equal-duration
class: the elements skipped over by `orderedInsert` never share the
inserted element's duration key. -/
theorem filter_orderedInsert (r : CallLog → CallLog → Prop) [DecidableRel r]
    (hkey : ∀ a b, ¬ r a b → durKey b ≠ durKey a) (a : CallLog) (c : ℚ) :
    ∀ l : List CallLog,
      (List.orderedInsert r a l).filter (fun x => decide (durKey x = c)) =
        if durKey a = c then a :: l.filter (fun x => decide (durKey x = c))
        else l.filter (fun x => decide (durKey x = c))
  | [] => by
      by_cases hac : durKey a = c <;>
        simp [List.orderedInsert, List.filter_cons, hac]
  | b :: l => by
      by_cases hab : r a b
      · by_cases hac : durKey a = c <;>
          simp [List.orderedInsert, if_pos hab, List.filter_cons, hac]
      · have hbne := hkey a b hab
        simp only [List.orderedInsert, if_neg hab]
        rw [List.filter_cons, List.filter_cons,
          filter_orderedInsert r hkey a c l]
        by_cases hac : durKey a = c
        · have hb : ¬ (durKey b = c) := fun h => hbne (h.trans hac.symm)
          simp [hac, hb]
        · simp [hac]

/-- Stability of the sort along equal-duration classes: filtering the
sorted list to one duration key gives the same sequence as filtering the
input, i.e. elements of equal key keep their original relative order. -/
theorem filter_insertionSort (r : CallLog → CallLog → Prop) [DecidableRel r]
    (hkey : ∀ a b, ¬ r a b → durKey b ≠ durKey a) (c : ℚ) :
    ∀ l : List CallLog,
      (List.insertionSort r l).filter (fun x => decide (durKey x = c)) =
        l.filter (fun x => decide (durKey x = c))
  | [] => rfl
  | a :: l => by
      simp only [List.insertionSort]
      rw [filter_orderedInsert r hkey a c,
        filter_insertionSort r hkey c l, List.filter_cons]
      by_cases hac : durKey a = c <;> simp [hac]

/-- Two descending insertions of elements with strictly ordered duration
keys commute. -/
theorem orderedInsert_desc_comm (a b : CallLog) (hab : durKey b < durKey a) :
    ∀ s : List CallLog,
      List.orderedInsert descRel b (List.orderedInsert descRel a s) =
        List.orderedInsert descRel a (List.orderedInsert descRel b s)
  | [] => by
      have h1 : ¬ descRel b a := not_le.2 hab
      have h2 : descRel a b := le_of_lt hab
      simp [List.orderedInsert, h1, h2]
  | c :: s => by
      have h1 : ¬ descRel b a := not_le.2 hab
      have h2 : descRel a b := le_of_lt hab
      by_cases hca : descRel a c
      · by_cases hcb : descRel b c <;>
          simp [List.orderedInsert, hca, hcb, h1, h2]
      · have hcb : ¬ descRel b c := fun h => hca (le_trans h (le_of_lt hab))
        simp only [List.orderedInsert, if_neg hca, if_neg hcb]
        rw [orderedInsert_desc_comm a b hab s]

/-- Descending-sorting an ascending insertion is a descending insertion
into the descending sort. -/
theorem insertionSort_desc_orderedInsert_asc (a : CallLog) :
    ∀ m : List CallLog,
      List.insertionSort descRel (List.orderedInsert ascRel a m) =
        List.orderedInsert descRel a (List.insertionSort descRel m)
  | [] => rfl
  | b :: m => by
      by_cases hab : ascRel a b
      · simp only [List.orderedInsert, if_pos hab, List.insertionSort]
      · have hba : durKey b < durKey a := not_le.mp hab
        simp only [List.orderedInsert, if_neg hab, List.insertionSort]
        rw [insertionSort_desc_orderedInsert_asc a m]
        exact orderedInsert_desc_comm a b hba (List.insertionSort descRel m)

/-- The key collapse behind the sort cycle: a stable descending sort of
the stable ascending sort of a list equals the stable descending sort of
the list itself (equal keys stay in original order either way). -/
theorem insertionSort_desc_asc :
    ∀ l : List CallLog,
      List.insertionSort descRel (List.insertionSort ascRel l) =
        List.insertionSort descRel l
  | [] => rfl
  | a :: l => by
      simp only [List.insertionSort]
      rw [insertionSort_desc_orderedInsert_asc a, insertionSort_desc_asc l]

/-- Every state reachable by sort activations from the initial table state
is one of three: the fetch order with no direction, the ascending stable
sort, or the descending stable sort of the fetched list. -/
theorem handleSort_iterate (logs : List CallLog) (n : Nat) :
    handleSort^[n] (initTableState logs) = initTableState logs ∨
    handleSort^[n] (initTableState logs) =
      ⟨logs, List.insertionSort ascRel logs, some SortDir.asc⟩ ∨
    handleSort^[n] (initTableState logs) =
      ⟨logs, List.insertionSort descRel logs, some SortDir.desc⟩ := by
  induction n with
  | zero => exact Or.inl rfl
  | succ n ih =>
      rw [Function.iterate_succ_apply']
      rcases ih with h | h | h <;> rw [h]
      · exact Or.inr (Or.inl rfl)
      · refine Or.inr (Or.inr ?_)
        show TableState.mk logs
          (List.insertionSort descRel (List.insertionSort ascRel logs))
          (some SortDir.desc) = _
        rw [insertionSort_desc_asc]
      · exact Or.inl rfl

/-- A filter and its complement split a list's length. -/
theorem length_filter_add_length_filter_not (p : CallLog → Bool) (l : List CallLog) :
    (l.filter p).length + (l.filter (fun x => !(p x))).length = l.length := by
  induction l with
  | nil => rfl
  | cons a l ih => by_cases h : p a <;> simp [List.filter_cons, h] <;> omega

/-- With a falsy identifier the effect body is the identity, no matter how
often it runs and what the fetches would have returned. -/
theorem foldl_fetchData_none (outcomes : List FetchOutcome) (s : LoaderState) :
    outcomes.foldl (fun t o => fetchData none o t) s = s := by
  induction outcomes generalizing s with
  | nil => rfl
  | cons o rest ih => exact ih s

/-- A concrete call log with every nullable field missing. -/
def logMissingAll : CallLog :=
  ⟨none, "+15550000001", "Ann", "call-1", none, none, none, none, none, none, none⟩

/-- A concrete completed call of duration 5 seconds. -/
def logDurFive : CallLog :=
  ⟨some 1, "+15550000002", "Bo", "call-2", some "completed", some 5,
    some "Positive", none, none, none, none⟩

/-- A concrete unanswered call of duration 3 seconds. -/
def logDurThree : CallLog :=
  ⟨some 2, "+15550000003", "Cy", "call-3", some "no-answer", some 3,
    none, none, none, none, none⟩

/-- A two-element fetched list used by the concrete witnesses. -/
def exampleLogs : List CallLog :=
  [logDurFive, logDurThree]

/-- Claim C1: with an empty call-log list (`totalCalls = 0`) the division
`sum / total` is `0 / 0 = NaN`, the stat card's template literal renders
it, and the page displays the string `"NaN sec"` — not a defined fallback
such as `"0.00 sec"` or `"N/A"`; no caller handles the not-a-number
value. -/
theorem c1_empty_list_average_renders_nan :
    totalCalls [] = 0 ∧ averageCallDuration [] = JSNum.nan ∧
      avgCallDurationDisplay [] = "NaN sec" := by
  refine ⟨rfl, by decide, by decide⟩

/-- Claim C2, counterexample: for a log whose duration is missing, the
exported "Duration (sec)" value is `undefined` (`none`), not the string
`"N/A"`; the claim that every missing field renders as `"N/A"` is false. -/
theorem c2_counterexample_missing_duration :
    logMissingAll.call_duration = none ∧
      (toExportRecord logMissingAll).durationSec ≠ some "N/A" := by
  decide

/-- Claim C2 (amended): in the exported record only a missing disconnection
reason renders as `"N/A"`; a missing duration, sentiment, start time,
summary, transcript or recording URL is exported as the absent
(`undefined`) value itself. -/
theorem c2_missing_field_export (log : CallLog) :
    (log.disconnection_reason = none → (toExportRecord log).disconnectionReason = "N/A") ∧
    (log.call_duration = none → (toExportRecord log).durationSec = none) ∧
    (log.user_sentiment = none → (toExportRecord log).sentiment = none) ∧
    (log.start_time = none → (toExportRecord log).startTime = none) ∧
    (log.call_summary = none → (toExportRecord log).callSummary = none) ∧
    (log.call_transcript = none → (toExportRecord log).callTranscript = none) ∧
    (log.call_recording = none → (toExportRecord log).callRecording = none) := by
  refine ⟨fun h => ?_, fun h => ?_, fun h => ?_, fun h => ?_,
    fun h => ?_, fun h => ?_, fun h => ?_⟩ <;>
      simp [toExportRecord, jsOrStr, h]

/-- Claim C2 witness: the amended statement evaluated on the concrete
all-missing log. -/
theorem c2_missing_field_export_witness :
    (toExportRecord logMissingAll).disconnectionReason = "N/A" ∧
      (toExportRecord logMissingAll).durationSec = none :=
  ⟨(c2_missing_field_export logMissingAll).1 rfl,
    (c2_missing_field_export logMissingAll).2.1 rfl⟩

/-- Claim C3: after any number of sort activations, the export built from
the current table state has exactly one record per displayed row, and the
record at every index is the export record of the displayed log at that
index (so count and order both match the display). -/
theorem c3_export_matches_display (logs : List CallLog) (n : Nat) :
    (exportData (handleSort^[n] (initTableState logs))).length =
      (handleSort^[n] (initTableState logs)).sortedLogs.length ∧
    ∀ i : Nat,
      (exportData (handleSort^[n] (initTableState logs)))[i]? =
        ((handleSort^[n] (initTableState logs)).sortedLogs[i]?).map toExportRecord := by
  refine ⟨by simp [exportData], fun i => ?_⟩
  simp [exportData]

/-- Claim C4: from the initial state, one activation of the duration sort
control yields direction `asc` and a displayed permutation of the fetched
list with non-decreasing duration keys (nulls as 0); a second yields
direction `desc` and non-increasing keys; a third yields direction `none`
and exactly the original fetch order. -/
theorem c4_sort_direction_cycle (logs : List CallLog) :
    (handleSort (initTableState logs)).direction = some SortDir.asc ∧
    (handleSort (initTableState logs)).sortedLogs.Pairwise
      (fun a b => durKey a ≤ durKey b) ∧
    (handleSort (initTableState logs)).sortedLogs.Perm logs ∧
    (handleSort (handleSort (initTableState logs))).direction = some SortDir.desc ∧
    (handleSort (handleSort (initTableState logs))).sortedLogs.Pairwise
      (fun a b => durKey b ≤ durKey a) ∧
    (handleSort (handleSort (initTableState logs))).sortedLogs.Perm logs ∧
    (handleSort (handleSort (handleSort (initTableState logs)))).direction = none ∧
    (handleSort (handleSort (handleSort (initTableState logs)))).sortedLogs = logs := by
  have h1 : handleSort (initTableState logs) =
      ⟨logs, List.insertionSort ascRel logs, some SortDir.asc⟩ := rfl
  have h2 : handleSort ⟨logs, List.insertionSort ascRel logs, some SortDir.asc⟩ =
      ⟨logs, List.insertionSort descRel (List.insertionSort ascRel logs),
        some SortDir.desc⟩ := rfl
  have h3 : handleSort ⟨logs,
      List.insertionSort descRel (List.insertionSort ascRel logs),
      some SortDir.desc⟩ = ⟨logs, logs, none⟩ := rfl
  rw [h1, h2, h3]
  refine ⟨rfl, ?_, List.perm_insertionSort ascRel logs, rfl, ?_, ?_, rfl, rfl⟩
  · exact (List.sorted_insertionSort ascRel logs).imp (fun h => h)
  · exact (List.sorted_insertionSort descRel
      (List.insertionSort ascRel logs)).imp (fun h => h)
  · exact (List.perm_insertionSort descRel _).trans
      (List.perm_insertionSort ascRel logs)

/-- Claim C5: after any number of sort activations, whenever the direction
is ascending (resp. descending) the displayed order is the stable
ascending (resp. descending) duration sort of the *fetched* list — even
though the code re-sorts the previously displayed list — and in every
state logs of any fixed duration key appear in their fetch-order relative
positions. -/
theorem c5_display_is_stable_sort_of_fetch (logs : List CallLog) (n : Nat) :
    ((handleSort^[n] (initTableState logs)).direction = some SortDir.asc →
      (handleSort^[n] (initTableState logs)).sortedLogs =
        List.insertionSort ascRel logs) ∧
    ((handleSort^[n] (initTableState logs)).direction = some SortDir.desc →
      (handleSort^[n] (initTableState logs)).sortedLogs =
        List.insertionSort descRel logs) ∧
    ∀ c : ℚ,
      (handleSort^[n] (initTableState logs)).sortedLogs.filter
          (fun x => decide (durKey x = c)) =
        logs.filter (fun x => decide (durKey x = c)) := by
  have hasc : ∀ a b : CallLog, ¬ ascRel a b → durKey b ≠ durKey a :=
    fun a b hab => (not_le.mp hab).ne
  have hdesc : ∀ a b : CallLog, ¬ descRel a b → durKey b ≠ durKey a :=
    fun a b hab => (not_le.mp hab).ne'
  rcases handleSort_iterate logs n with h | h | h <;> rw [h]
  · exact ⟨fun hdir => absurd hdir (by simp [initTableState]),
      fun hdir => absurd hdir (by simp [initTableState]), fun c => rfl⟩
  · exact ⟨fun _ => rfl, fun hdir => absurd hdir (by simp),
      fun c => filter_insertionSort ascRel hasc c logs⟩
  · exact ⟨fun hdir => absurd hdir (by simp), fun _ => rfl,
      fun c => filter_insertionSort descRel hdesc c logs⟩

/-- Claim C5 witness: the theorem applied at the concrete two-log list,
after one activation (ascending) and after two (descending). -/
theorem c5_display_is_stable_sort_of_fetch_witness :
    (handleSort^[1] (initTableState exampleLogs)).sortedLogs =
      List.insertionSort ascRel exampleLogs ∧
    (handleSort^[2] (initTableState exampleLogs)).sortedLogs =
      List.insertionSort descRel exampleLogs :=
  ⟨(c5_display_is_stable_sort_of_fetch exampleLogs 1).1 (by decide),
    (c5_display_is_stable_sort_of_fetch exampleLogs 2).2.1 (by decide)⟩

/-- Claim C6, counterexample: start from a fetched one-log list, activate
the sort once (direction becomes ascending), then let the underlying list
change; the resulting state's direction is still `asc`, not the initial
`none` — the effect resets only the displayed list, not the sort
direction. -/
theorem c6_counterexample_direction_not_reset :
    (callLogsChanged (handleSort (initTableState [logDurFive]))
        [logDurThree]).direction = some SortDir.asc ∧
    (callLogsChanged (handleSort (initTableState [logDurFive]))
        [logDurThree]).direction ≠ none := by
  decide

/-- Claim C6 (amended): whenever the underlying call-log list changes, the
displayed ordering is reset to the new fetch order, but the three-valued
sort direction is left unchanged rather than reset to `none`. -/
theorem c6_list_change_resets_order_only (s : TableState) (newLogs : List CallLog) :
    (callLogsChanged s newLogs).sortedLogs = newLogs ∧
    (callLogsChanged s newLogs).callLogs = newLogs ∧
    (callLogsChanged s newLogs).direction = s.direction :=
  ⟨rfl, rfl, rfl⟩

/-- Claim C7: for every list of call logs, `answered + unanswered = total`;
`answered` counts exactly the logs whose disconnection reason is literally
`"completed"` (case-sensitive string equality), and `unanswered` equals the
count of all remaining logs. -/
theorem c7_answered_add_unanswered (logs : List CallLog) :
    (answeredCalls logs : Int) + unansweredCalls logs = (totalCalls logs : Int) ∧
    answeredCalls logs =
      (logs.filter
        (fun log => decide (log.disconnection_reason = some "completed"))).length ∧
    unansweredCalls logs =
      ((logs.filter
        (fun log => !(decide (log.disconnection_reason = some "completed")))).length : Int) := by
  refine ⟨by unfold unansweredCalls; ring, rfl, ?_⟩
  have h := length_filter_add_length_filter_not
    (fun log => decide (log.disconnection_reason = some "completed")) logs
  unfold unansweredCalls totalCalls answeredCalls
  omega

/-- Claim C8: grouping a two-element list whose first log has a null
disconnection reason and whose second has `"completed"` yields the counts
`Unknown ↦ 1, completed ↦ 1`, iterated in first-occurrence (insertion)
order, with the null value falling into the default label `"Unknown"`. -/
theorem c8_groupby_insertion_order :
    disconnectionReasonData [logMissingAll, logDurFive] =
      [("Unknown", 1), ("completed", 1)] := by
  decide

/-- Claim C9: no sequence of sort activations mutates the underlying
source list — after any number of activations the `callLogs` prop is
element-for-element the fetched list (sorting works on a copy). -/
theorem c9_source_list_never_mutated (logs : List CallLog) (n : Nat) :
    (handleSort^[n] (initTableState logs)).callLogs = logs := by
  rcases handleSort_iterate logs n with h | h | h <;> rw [h]
  rfl

/-- Claim C10: with an undefined campaign identifier the effect's guard
fails, so no fetch is ever performed and every subsequent loader state is
the initial one: `loading` stays `true` and the page renders the loading
spinner forever. -/
theorem c10_undefined_id_loading_forever (outcomes : List FetchOutcome) :
    performsFetch none = false ∧
    outcomes.foldl (fun s o => fetchData none o s) initLoaderState = initLoaderState ∧
    (outcomes.foldl (fun s o => fetchData none o s) initLoaderState).loading = true ∧
    rendersLoadingSpinner
      (outcomes.foldl (fun s o => fetchData none o s) initLoaderState) = true := by
  have h := foldl_fetchData_none outcomes initLoaderState
  exact ⟨rfl, h, by rw [h]; rfl, by rw [h]; rfl⟩
